import Mathlib

/-!
Shallow embedding of the multigenerational LRU page-tracking core of
include/linux/mm_inline.h (the CONFIG_LRU_GEN build).

The packed atomic word page->flags is modelled as a record of its disjoint
bit fields: the LRU_GEN field (generation index plus one, 0 = untracked),
the LRU_USAGE field, the individual page flag bits used by this core, and
an abstract field holding every remaining bit of the word.  Functions of
the source that mutate state through a compare-and-swap retry loop are
modelled as the pure state transition performed by the one successful
iteration (there is no interference in the sequential model, so the loop
runs exactly once).  VM_BUG_ON debug assertions of lru_gen_update_size are
recorded in an explicit `bug` flag of the container state; the remaining
VM_BUG_ON sites are noted in comments at their places.

Container-side state (struct lruvec / struct lrugen) carries the per
(generation, type, zone) size counters, the per (generation, type, zone)
page lists (as lists of page identities), and the external accounting
sinks of update_lru_size, modelled as one counter table indexed by
(lru list kind, zone) together with a log of the forwarded deltas.
-/

set_option autoImplicit false

/-- Modelled from the spec: the window size N (MAX_NR_GENS, from the
CONFIG_NR_LRU_GENS configuration, not under src/); the default
configuration value is 4. -/
def MAX_NR_GENS : Nat := 4

/-- Modelled from the spec: the number of usage tiers (MAX_NR_TIERS, from
the CONFIG_TIERS_PER_GEN configuration, not under src/); the default
configuration value is 4. -/
def MAX_NR_TIERS : Nat := 4

/-- Modelled from the spec: the maximum value of the LRU_USAGE field,
LRU_USAGE_MASK shifted down to field level; the field is
MAX_NR_TIERS - 2 bits wide. -/
def LRU_USAGE_MAX : Nat := 2 ^ (MAX_NR_TIERS - 2) - 1

/-- Modelled from the spec: the enum lru_list offset LRU_FILE (not under
src/) added for file-backed list kinds, as used by the arithmetic
`lru = LRU_FILE * file` in lru_gen_update_size. -/
def LRU_FILE : Nat := 2

/-- Modelled from the spec: the enum lru_list offset LRU_ACTIVE (not under
src/) added for active list kinds, as used by `lru += LRU_ACTIVE` in
lru_gen_update_size. -/
def LRU_ACTIVE : Nat := 1

/-- Floor of the base-2 logarithm, computed by structural recursion on a
fuel argument so that it reduces inside the kernel; the fuel is an upper
bound on the number of halvings. -/
def log2Aux (fuel n : Nat) : Nat :=
  match fuel with
  | 0 => 0
  | fuel' + 1 => if 2 ≤ n then log2Aux fuel' (n / 2) + 1 else 0

/-- Modelled from the spec: order_base_2 (include/linux/log2.h, not under
src/), as used by lru_tier_from_usage; the spec defines the tier of a
usage value as the floor of log2 of (usage + 1), clamped to the maximum
representable tier. -/
def order_base_2 (n : Nat) : Nat := log2Aux n n

/-- The bit fields of the packed word page->flags that this core reads or
writes, plus `other` for every remaining bit (e.g. an unrelated lock bit
sharing the word).  The fields occupy disjoint bit ranges of one word in
the source, so the record is an exact model of the word. -/
structure PageFlags where
  /-- The LRU_GEN field: generation index plus one, 0 = untracked. -/
  gen_p1 : Nat
  /-- The LRU_USAGE field (saturating access counter). -/
  usage : Nat
  /-- PG_active. -/
  active : Bool
  /-- PG_referenced. -/
  referenced : Bool
  /-- PG_workingset. -/
  workingset : Bool
  /-- PG_unevictable. -/
  unevictable : Bool
  /-- PG_swapbacked. -/
  swapbacked : Bool
  /-- PG_swapcache. -/
  swapcache : Bool
  /-- PG_reclaim. -/
  reclaim : Bool
  /-- PG_dirty. -/
  dirty : Bool
  /-- PG_writeback. -/
  writeback : Bool
  /-- Every bit of the word not owned by the fields above. -/
  other : Nat
deriving DecidableEq, Repr

/-- A struct page as far as this core observes it: an identity (standing
for the node address &page->lru), the zone number (page_zonenum), the
number of base pages (thp_nr_pages), and the packed flags word. -/
structure Page where
  id : Nat
  zone : Nat
  nr_pages : Nat
  flags : PageFlags
deriving DecidableEq, Repr

/-- The struct lrugen part of a container: sliding window of sequence
numbers, per-type enable flags, per (generation, type, zone) size
counters, and per (generation, type, zone) page lists (lists of page
identities; the head of the Lean list is the head of the kernel list). -/
structure LruGen where
  max_seq : Nat
  min_seq : Bool → Nat
  enabled : Bool → Bool
  sizes : Nat → Bool → Nat → Int
  lists : Nat → Bool → Nat → List Nat

/-- The struct lruvec part visible to this core, plus the external
accounting sinks of update_lru_size folded into one counter table
(indexed by lru list kind and zone) and a log of forwarded deltas,
plus the `bug` flag recording a fired VM_BUG_ON of
lru_gen_update_size. -/
structure Lruvec where
  evictable : LruGen
  lru_sizes : Nat → Nat → Int
  lru_log : List (Nat × Nat × Int)
  bug : Bool

/-- page_is_file_lru: nonzero (true) iff the page is not swap backed. -/
def page_is_file_lru (page : Page) : Bool :=
  !page.flags.swapbacked

/-- lru_gen_from_seq: sequence number to generation slot. -/
def lru_gen_from_seq (seq : Nat) : Nat :=
  seq % MAX_NR_GENS

/-- lru_tier_from_usage: convert the level of usage to a tier. -/
def lru_tier_from_usage (usage : Nat) : Nat :=
  order_base_2 (usage + 1)

/-- lru_gen_is_active: the youngest and the second youngest generations
are considered active.  The source asserts VM_BUG_ON(!max_seq), so
max_seq ≥ 1 whenever this runs and the truncated subtraction max_seq - 1
agrees with the unsigned long subtraction of the source. -/
def lru_gen_is_active (lruvec : Lruvec) (gen : Nat) : Bool :=
  gen == lru_gen_from_seq lruvec.evictable.max_seq ||
  gen == lru_gen_from_seq (lruvec.evictable.max_seq - 1)

/-- Pointwise update of a (generation, type, zone) counter table by a
delta, the state-passing form of the WRITE_ONCE counter updates of
lru_gen_update_size. -/
def updSizes (s : Nat → Bool → Nat → Int) (g : Nat) (f : Bool) (z : Nat) (d : Int) :
    Nat → Bool → Nat → Int :=
  fun g' f' z' => if g' = g ∧ f' = f ∧ z' = z then s g' f' z' + d else s g' f' z'

/-- Pointwise update of the (lru list kind, zone) sink counter table. -/
def updLru (s : Nat → Nat → Int) (l : Nat) (z : Nat) (d : Int) :
    Nat → Nat → Int :=
  fun l' z' => if l' = l ∧ z' = z then s l' z' + d else s l' z'

/-- update_lru_size: forward a delta for one (lru list kind, zone) to the
external sinks (__mod_lruvec_state, __mod_zone_page_state and, with
CONFIG_MEMCG, mem_cgroup_update_lru_size), modelled as one counter table
plus a log of the forwarded deltas. -/
def update_lru_size (lruvec : Lruvec) (lru : Nat) (zid : Nat) (nr_pages : Int) :
    Lruvec :=
  { lruvec with
    lru_sizes := updLru lruvec.lru_sizes lru zid nr_pages,
    lru_log := lruvec.lru_log ++ [(lru, zid, nr_pages)] }

/-- lru_gen_update_size: update the sizes of the multigenerational lru.
The generation arguments are ints with -1 meaning untracked.  The four
VM_BUG_ON assertions of the source (old_gen out of range, new_gen out of
range, both untracked, and the active-to-inactive crossing at the end of
the both-tracked path) set the `bug` flag instead of aborting; the rest
is the release-build behavior. -/
def lru_gen_update_size (page : Page) (lruvec : Lruvec) (old_gen new_gen : Int) :
    Lruvec :=
  let file := page_is_file_lru page
  let zone := page.zone
  let delta : Int := page.nr_pages
  let lru := LRU_FILE * (if file then 1 else 0)
  let bug1 := lruvec.bug
    || decide (old_gen ≠ -1 ∧ (MAX_NR_GENS : Int) ≤ old_gen)
    || decide (new_gen ≠ -1 ∧ (MAX_NR_GENS : Int) ≤ new_gen)
    || decide (old_gen = -1 ∧ new_gen = -1)
  let sizes1 := if 0 ≤ old_gen then
      updSizes lruvec.evictable.sizes old_gen.toNat file zone (-delta)
    else lruvec.evictable.sizes
  let sizes2 := if 0 ≤ new_gen then
      updSizes sizes1 new_gen.toNat file zone delta
    else sizes1
  let v := { lruvec with
    evictable := { lruvec.evictable with sizes := sizes2 },
    bug := bug1 }
  if old_gen < 0 then
    let lru1 := if lru_gen_is_active v new_gen.toNat then lru + LRU_ACTIVE else lru
    update_lru_size v lru1 zone delta
  else if new_gen < 0 then
    let lru1 := if lru_gen_is_active v old_gen.toNat then lru + LRU_ACTIVE else lru
    update_lru_size v lru1 zone (-delta)
  else
    let v1 := if !lru_gen_is_active v old_gen.toNat && lru_gen_is_active v new_gen.toNat
      then update_lru_size (update_lru_size v lru zone (-delta)) (lru + LRU_ACTIVE) zone delta
      else v
    { v1 with
      bug := v1.bug ||
        (lru_gen_is_active v old_gen.toNat && !lru_gen_is_active v new_gen.toNat) }

/-- Insertion of a page identity at the head of one (generation, type,
zone) list slot (list_add into lrugen->lists[gen][file][zone]). -/
def lru_list_add (lrugen : LruGen) (id : Nat) (gen : Nat) (f : Bool) (z : Nat) :
    LruGen :=
  { lrugen with
    lists := fun g' f' z' => if g' = gen ∧ f' = f ∧ z' = z
      then id :: lrugen.lists g' f' z' else lrugen.lists g' f' z' }

/-- Insertion of a page identity at the tail of one (generation, type,
zone) list slot (list_add_tail into lrugen->lists[gen][file][zone]). -/
def lru_list_add_tail (lrugen : LruGen) (id : Nat) (gen : Nat) (f : Bool) (z : Nat) :
    LruGen :=
  { lrugen with
    lists := fun g' f' z' => if g' = gen ∧ f' = f ∧ z' = z
      then lrugen.lists g' f' z' ++ [id] else lrugen.lists g' f' z' }

/-- Unlinking of a page node (list_del on &page->lru): the node is removed
from whichever list slot holds it; slots not holding it are unchanged. -/
def lru_list_del (lrugen : LruGen) (id : Nat) : LruGen :=
  { lrugen with lists := fun g' f' z' => (lrugen.lists g' f' z').erase id }

/-- The flags transition of the compare-and-swap loop of lru_gen_addition:
new_flags = (old_flags & ~(LRU_GEN_MASK | BIT(PG_active))) |
((gen + 1) << LRU_GEN_PGOFF), and when the referenced bit of the read
word is clear, new_flags &= ~(LRU_USAGE_MASK | LRU_TIER_FLAGS).
Modelled from the spec: LRU_TIER_FLAGS (not under src/) covers the bits
the tier of a page is derived from, the workingset bit and the
referenced bit (see page_tier_usage).  The source site also asserts
VM_BUG_ON_PAGE(old_flags & LRU_GEN_MASK, page): the page must not
already carry a generation. -/
def lru_gen_addition_flags (old : PageFlags) (gen : Nat) : PageFlags :=
  let nf := { old with gen_p1 := gen + 1, active := false }
  if old.referenced then nf
  else { nf with usage := 0, workingset := false, referenced := false }

/-- The target generation selection of lru_gen_addition: a page that is
already PageActive goes to the youngest generation; a page that cannot be
evicted immediately (a swap-backed page not in swap cache, a dirty or
writeback page marked PageReclaim, or an unreferenced workingset page)
goes to the second oldest; every other page goes to the oldest. -/
def lru_gen_target (page : Page) (lruvec : Lruvec) : Nat :=
  let file := page_is_file_lru page
  if page.flags.active then
    lru_gen_from_seq lruvec.evictable.max_seq
  else if (!file && !page.flags.swapcache) ||
          (page.flags.reclaim && (page.flags.dirty || page.flags.writeback)) ||
          (!page.flags.referenced && page.flags.workingset) then
    lru_gen_from_seq (lruvec.evictable.min_seq file + 1)
  else
    lru_gen_from_seq (lruvec.evictable.min_seq file)

/-- lru_gen_addition: add a page to a list of the multigenerational lru.
Returns the success flag together with the new page and container
states. -/
def lru_gen_addition (page : Page) (lruvec : Lruvec) (front : Bool) :
    Bool × Page × Lruvec :=
  let file := page_is_file_lru page
  let zone := page.zone
  if page.flags.unevictable || !lruvec.evictable.enabled file then
    (false, page, lruvec)
  else
    let gen := lru_gen_target page lruvec
    let page1 := { page with flags := lru_gen_addition_flags page.flags gen }
    let v1 := lru_gen_update_size page lruvec (-1) (gen : Int)
    let lrugen1 := if front then lru_list_add v1.evictable page.id gen file zone
      else lru_list_add_tail v1.evictable page.id gen file zone
    (true, page1, { v1 with evictable := lrugen1 })

/-- lru_gen_deletion: delete a page from a list of the multigenerational
lru.  The flags transition of the compare-and-swap loop clears the
LRU_GEN field and ors in BIT(PG_active) when the cleared generation is
active; the source site also asserts VM_BUG_ON_PAGE(PageActive(page))
and VM_BUG_ON_PAGE(PageUnevictable(page)). -/
def lru_gen_deletion (page : Page) (lruvec : Lruvec) : Bool × Page × Lruvec :=
  if page.flags.gen_p1 = 0 then
    (false, page, lruvec)
  else
    let gen := page.flags.gen_p1 - 1
    let flags1 := { page.flags with
      gen_p1 := 0,
      active := page.flags.active || lru_gen_is_active lruvec gen }
    let page1 := { page with flags := flags1 }
    let v1 := lru_gen_update_size page lruvec (gen : Int) (-1)
    (true, page1, { v1 with evictable := lru_list_del v1.evictable page.id })

/-- page_lru_gen: return -1 when a page is not on a list of the
multigenerational lru, the generation index otherwise. -/
def page_lru_gen (page : Page) : Int :=
  (page.flags.gen_p1 : Int) - 1

/-- page_tier_usage: the level of usage of a page, zero unless the
workingset bit is set. -/
def page_tier_usage (page : Page) : Nat :=
  if page.flags.workingset then page.flags.usage + 1 else 0

/-- page_inc_usage: increment the usage counter after a page is accessed
via file descriptors.  The global static key lru_gen_enabled() is passed
as the `enabled` argument.  When disabled the function returns
PageActive(page) and writes nothing; when enabled, the compare-and-swap
transition sets the workingset bit if it is clear and otherwise
saturating-increments the LRU_USAGE field
(min(LRU_USAGE_MASK, usage + BIT(LRU_USAGE_PGOFF)) at word level). -/
def page_inc_usage (enabled : Bool) (page : Page) : Bool × Page :=
  if !enabled then
    (page.flags.active, page)
  else if !page.flags.workingset then
    (true, { page with flags := { page.flags with workingset := true } })
  else
    (true, { page with flags :=
      { page.flags with usage := min LRU_USAGE_MAX (page.flags.usage + 1) } })

/-- The invariant that generation presence supersedes the classic activity
bit: a page carrying a generation has PG_active clear. -/
def page_tracked_inactive (page : Page) : Prop :=
  page.flags.gen_p1 ≠ 0 → page.flags.active = false

/-- Concrete flags word with every field cleared, for witnesses. -/
def flags0 : PageFlags :=
  { gen_p1 := 0, usage := 0, active := false, referenced := false,
    workingset := false, unevictable := false, swapbacked := false,
    swapcache := false, reclaim := false, dirty := false,
    writeback := false, other := 5 }

/-- Concrete file page, untracked and with all bits clear, for
witnesses. -/
def page0 : Page :=
  { id := 1, zone := 0, nr_pages := 1, flags := flags0 }

/-- Concrete generation table for witnesses: max_seq = 2, both min_seq
0, both types enabled, empty counters and lists. -/
def lrugen0 : LruGen :=
  { max_seq := 2, min_seq := fun _ => 0, enabled := fun _ => true,
    sizes := fun _ _ _ => 0, lists := fun _ _ _ => [] }

/-- Concrete container state for witnesses. -/
def lruvec0 : Lruvec :=
  { evictable := lrugen0, lru_sizes := fun _ _ => 0, lru_log := [], bug := false }

/-- Concrete tracked page (generation 2, an active generation of lruvec0)
for witnesses. -/
def pageT : Page :=
  { id := 2, zone := 0, nr_pages := 1, flags := { flags0 with gen_p1 := 3 } }

/-- Concrete unevictable page for witnesses. -/
def pageU : Page :=
  { id := 3, zone := 0, nr_pages := 1, flags := { flags0 with unevictable := true } }

/-- Concrete anonymous page not in swap cache for witnesses. -/
def pageA : Page :=
  { id := 4, zone := 0, nr_pages := 1, flags := { flags0 with swapbacked := true } }

/-! Helper lemmas -/

theorem updSizes_cancel (s : Nat → Bool → Nat → Int) (g : Nat) (f : Bool) (z : Nat)
    (d : Int) : updSizes (updSizes s g f z d) g f z (-d) = s := by
  funext g' f' z'
  by_cases h : g' = g ∧ f' = f ∧ z' = z <;> simp [updSizes, h]

theorem updLru_cancel (s : Nat → Nat → Int) (l z : Nat) (d : Int) :
    updLru (updLru s l z d) l z (-d) = s := by
  funext l' z'
  by_cases h : l' = l ∧ z' = z <;> simp [updLru, h]

theorem lru_gen_from_seq_lt (s : Nat) : lru_gen_from_seq s < MAX_NR_GENS := by
  show s % MAX_NR_GENS < MAX_NR_GENS
  exact Nat.mod_lt _ (by norm_num [MAX_NR_GENS])

theorem lru_gen_target_lt (p : Page) (v : Lruvec) :
    lru_gen_target p v < MAX_NR_GENS := by
  simp only [lru_gen_target]
  split_ifs <;> exact lru_gen_from_seq_lt _

theorem lru_gen_is_active_congr (v v' : Lruvec) (g : Nat)
    (h : v'.evictable.max_seq = v.evictable.max_seq) :
    lru_gen_is_active v' g = lru_gen_is_active v g := by
  simp [lru_gen_is_active, h]

theorem lru_gen_update_size_add_eq (p : Page) (v : Lruvec) (g : Nat)
    (hg : g < MAX_NR_GENS) :
    lru_gen_update_size p v (-1) (g : Int) =
      update_lru_size
        { v with
          evictable := { v.evictable with
            sizes := updSizes v.evictable.sizes g (page_is_file_lru p) p.zone
              (p.nr_pages : Int) },
          bug := v.bug }
        (if lru_gen_is_active v g
          then LRU_FILE * (if page_is_file_lru p then 1 else 0) + LRU_ACTIVE
          else LRU_FILE * (if page_is_file_lru p then 1 else 0))
        p.zone (p.nr_pages : Int) := by
  have h1 : ¬((g : Int) = -1) := by omega
  have h2 : ¬((MAX_NR_GENS : Int) ≤ (g : Int)) := by
    simp only [MAX_NR_GENS] at hg ⊢
    omega
  simp only [lru_gen_update_size]
  norm_num [lru_gen_is_active, h1, h2]

theorem lru_gen_update_size_del_eq (p : Page) (v : Lruvec) (g : Nat)
    (hg : g < MAX_NR_GENS) :
    lru_gen_update_size p v (g : Int) (-1) =
      update_lru_size
        { v with
          evictable := { v.evictable with
            sizes := updSizes v.evictable.sizes g (page_is_file_lru p) p.zone
              (-(p.nr_pages : Int)) },
          bug := v.bug }
        (if lru_gen_is_active v g
          then LRU_FILE * (if page_is_file_lru p then 1 else 0) + LRU_ACTIVE
          else LRU_FILE * (if page_is_file_lru p then 1 else 0))
        p.zone (-(p.nr_pages : Int)) := by
  have h1 : ¬((g : Int) = -1) := by omega
  have h2 : ¬((MAX_NR_GENS : Int) ≤ (g : Int)) := by
    simp only [MAX_NR_GENS] at hg ⊢
    omega
  have h3 : ¬((g : Int) < 0) := by omega
  simp only [lru_gen_update_size]
  norm_num [lru_gen_is_active, h1, h2, h3]

theorem lru_gen_update_size_cross_log (p : Page) (v : Lruvec) (og ng : Nat)
    (h1 : lru_gen_is_active v og = false) (h2 : lru_gen_is_active v ng = true) :
    (lru_gen_update_size p v (og : Int) (ng : Int)).lru_log =
      v.lru_log ++
        [(LRU_FILE * (if page_is_file_lru p then 1 else 0), p.zone,
            -(p.nr_pages : Int)),
         (LRU_FILE * (if page_is_file_lru p then 1 else 0) + LRU_ACTIVE, p.zone,
            (p.nr_pages : Int))] := by
  have h3 : ¬((og : Int) < 0) := by omega
  have h4 : ¬((ng : Int) < 0) := by omega
  simp only [lru_gen_is_active, lru_gen_from_seq] at h1 h2
  simp only [lru_gen_update_size, update_lru_size]
  norm_num [lru_gen_is_active, lru_gen_from_seq, h1, h2, h3, h4]

theorem lru_gen_update_size_preserves (p : Page) (v : Lruvec) (og ng : Int) :
    (lru_gen_update_size p v og ng).evictable.max_seq = v.evictable.max_seq ∧
    (lru_gen_update_size p v og ng).evictable.min_seq = v.evictable.min_seq ∧
    (lru_gen_update_size p v og ng).evictable.enabled = v.evictable.enabled ∧
    (lru_gen_update_size p v og ng).evictable.lists = v.evictable.lists := by
  simp only [lru_gen_update_size, update_lru_size]
  split_ifs <;> simp

theorem lru_gen_addition_flags_fields (old : PageFlags) (g : Nat) :
    (lru_gen_addition_flags old g).gen_p1 = g + 1 ∧
    (lru_gen_addition_flags old g).active = false ∧
    (lru_gen_addition_flags old g).swapbacked = old.swapbacked ∧
    (lru_gen_addition_flags old g).referenced = old.referenced := by
  by_cases h : old.referenced <;> simp [lru_gen_addition_flags, h]

theorem log2Aux_spec (fuel n : Nat) (h1 : 1 ≤ n) (h2 : n ≤ fuel) :
    2 ^ log2Aux fuel n ≤ n ∧ n < 2 ^ (log2Aux fuel n + 1) := by
  induction fuel generalizing n with
  | zero => omega
  | succ fuel ih =>
    by_cases h : 2 ≤ n
    · have hdiv1 : 1 ≤ n / 2 := by omega
      have hdiv2 : n / 2 ≤ fuel := by omega
      have := ih (n / 2) hdiv1 hdiv2
      simp only [log2Aux, if_pos h]
      constructor
      · calc 2 ^ (log2Aux fuel (n / 2) + 1) = 2 ^ log2Aux fuel (n / 2) * 2 := by
              rw [pow_succ]
          _ ≤ n / 2 * 2 := by omega
          _ ≤ n := by omega
      · have hlt : n / 2 < 2 ^ (log2Aux fuel (n / 2) + 1) := this.2
        have : n < 2 ^ (log2Aux fuel (n / 2) + 1) * 2 := by omega
        calc n < 2 ^ (log2Aux fuel (n / 2) + 1) * 2 := this
          _ = 2 ^ (log2Aux fuel (n / 2) + 1 + 1) := by ring
    · have hn : n = 1 := by omega
      subst hn
      simp [log2Aux]

/-- C2: lru_tier_from_usage returns the floor of log2 of (usage + 1),
characterized by 2 ^ tier being at most usage + 1 while 2 ^ (tier + 1)
exceeds it; on every usage value representable in the LRU_USAGE field
(or produced by page_tier_usage from one) the result stays within the
maximum representable tier; in particular the tier of usage 0 is 0 and
the tier of usage 2 is 1. -/
theorem lru_tier_from_usage_spec :
    (∀ (usage : Nat),
      2 ^ lru_tier_from_usage usage ≤ usage + 1 ∧
      usage + 1 < 2 ^ (lru_tier_from_usage usage + 1)) ∧
    (∀ (usage : Nat), usage ≤ LRU_USAGE_MAX + 1 →
      lru_tier_from_usage usage ≤ MAX_NR_TIERS - 1) ∧
    lru_tier_from_usage 0 = 0 ∧ lru_tier_from_usage 2 = 1 := by
  refine ⟨fun u => log2Aux_spec (u + 1) (u + 1) (by omega) le_rfl, fun u hu => ?_,
    by decide, by decide⟩
  have hu4 : u ≤ 4 := by simpa [LRU_USAGE_MAX, MAX_NR_TIERS] using hu
  interval_cases u <;> decide

/-- C2 witness: the clamping part of lru_tier_from_usage_spec applied at
the concrete usage value 4. -/
theorem lru_tier_from_usage_spec_witness :
    4 ≤ LRU_USAGE_MAX + 1 ∧ lru_tier_from_usage 4 ≤ MAX_NR_TIERS - 1 :=
  ⟨by decide, lru_tier_from_usage_spec.2.1 4 (by decide)⟩

/-- C4 counterexample: with generation tracking disabled, page_inc_usage
does not perform the classic mark-active operation: on the inactive page
page0 it leaves the page word untouched (the active bit stays clear)
and merely reports whether the page was active. -/
theorem page_inc_usage_disabled_counterexample :
    (page_inc_usage false page0).2 = page0 ∧
    (page_inc_usage false page0).2.flags.active = false ∧
    (page_inc_usage false page0).1 = false := by
  decide

/-- C4 (amended): with generation tracking disabled, page_inc_usage leaves
the page unchanged and returns true iff the page was already active;
the classic mark-active fallback is left to the caller. -/
theorem page_inc_usage_disabled_spec :
    ∀ (p : Page), page_inc_usage false p = (p.flags.active, p) := by
  intro p
  rfl

/-- C7: with generation tracking enabled, page_inc_usage sets the
workingset bit on the first touch, otherwise saturating-increments the
usage field so that a stored usage within the field maximum never leaves
it, and always returns true. -/
theorem page_inc_usage_enabled_spec :
    ∀ (p : Page),
      (page_inc_usage true p).1 = true ∧
      (p.flags.workingset = false →
        (page_inc_usage true p).2 =
          { p with flags := { p.flags with workingset := true } }) ∧
      (p.flags.workingset = true →
        (page_inc_usage true p).2 =
          { p with flags := { p.flags with
            usage := min LRU_USAGE_MAX (p.flags.usage + 1) } }) ∧
      ((page_inc_usage true p).2.flags.usage ≤
        max LRU_USAGE_MAX p.flags.usage) := by
  intro p
  by_cases h : p.flags.workingset <;>
    simp [page_inc_usage, h, le_max_iff, min_le_left]

/-- C7 witness: page_inc_usage_enabled_spec applied to page0 (workingset
clear) and to its successor state (workingset set). -/
theorem page_inc_usage_enabled_spec_witness :
    (page_inc_usage true page0).2 =
      { page0 with flags := { page0.flags with workingset := true } } ∧
    (page_inc_usage true pageT).1 = true :=
  ⟨(page_inc_usage_enabled_spec page0).2.1 (by decide),
   (page_inc_usage_enabled_spec pageT).1⟩

/-- C8: the flags transition that moves a page into tracking changes only
the LRU_GEN field (set to gen + 1) and the PG_active bit (cleared), and,
exactly when the referenced bit of the read word is clear, additionally
resets the usage-tier bits (the LRU_USAGE field and the workingset bit,
the bits the tier of a page is derived from) to zero; every other bit of
the word, including the bits not owned by this core, is preserved in the
same write. -/
theorem lru_gen_addition_flags_frame :
    ∀ (old : PageFlags) (g : Nat),
      (lru_gen_addition_flags old g).gen_p1 = g + 1 ∧
      (lru_gen_addition_flags old g).active = false ∧
      (lru_gen_addition_flags old g).referenced = old.referenced ∧
      (lru_gen_addition_flags old g).unevictable = old.unevictable ∧
      (lru_gen_addition_flags old g).swapbacked = old.swapbacked ∧
      (lru_gen_addition_flags old g).swapcache = old.swapcache ∧
      (lru_gen_addition_flags old g).reclaim = old.reclaim ∧
      (lru_gen_addition_flags old g).dirty = old.dirty ∧
      (lru_gen_addition_flags old g).writeback = old.writeback ∧
      (lru_gen_addition_flags old g).other = old.other ∧
      (old.referenced = true →
        (lru_gen_addition_flags old g).usage = old.usage ∧
        (lru_gen_addition_flags old g).workingset = old.workingset) ∧
      (old.referenced = false →
        (lru_gen_addition_flags old g).usage = 0 ∧
        (lru_gen_addition_flags old g).workingset = false) := by
  intro old g
  by_cases h : old.referenced <;> simp [lru_gen_addition_flags, h]

/-- C8 witness: lru_gen_addition_flags_frame applied to the concrete word
flags0 (referenced clear), discharging the implication on the
not-referenced side. -/
theorem lru_gen_addition_flags_frame_witness :
    flags0.referenced = false ∧
    (lru_gen_addition_flags flags0 2).usage = 0 ∧
    (lru_gen_addition_flags flags0 2).workingset = false :=
  ⟨by decide, (lru_gen_addition_flags_frame flags0 2).2.2.2.2.2.2.2.2.2.2.2 (by decide)⟩

/-- C9: lru_gen_addition returns false exactly when the page is
unevictable or generation tracking is disabled for its type, and in that
case the page state and the whole container state (size counters and
list membership included) are returned unmodified. -/
theorem lru_gen_addition_reject_spec :
    ∀ (p : Page) (v : Lruvec) (front : Bool),
      ((lru_gen_addition p v front).1 = false ↔
        (p.flags.unevictable || !v.evictable.enabled (page_is_file_lru p)) = true) ∧
      ((p.flags.unevictable || !v.evictable.enabled (page_is_file_lru p)) = true →
        lru_gen_addition p v front = (false, p, v)) := by
  intro p v front
  by_cases h : (p.flags.unevictable || !v.evictable.enabled (page_is_file_lru p)) = true <;>
    simp [lru_gen_addition, h]

/-- C9 witness: lru_gen_addition_reject_spec applied to the unevictable
page pageU, showing the call is rejected with all state unchanged. -/
theorem lru_gen_addition_reject_spec_witness :
    lru_gen_addition pageU lruvec0 true = (false, pageU, lruvec0) :=
  (lru_gen_addition_reject_spec pageU lruvec0 true).2 (by decide)

/-- C10: generation presence supersedes the classic activity bit.  The
flags write of lru_gen_addition installs the generation and clears
PG_active in one transition; the flags write of lru_gen_deletion clears
the generation and ors in PG_active (when the cleared generation is
active) in one transition; and the tracked-implies-inactive invariant is
preserved by lru_gen_addition, lru_gen_deletion and page_inc_usage. -/
theorem lru_gen_tracked_supersedes_active :
    (∀ (old : PageFlags) (g : Nat),
      (lru_gen_addition_flags old g).gen_p1 ≠ 0 ∧
      (lru_gen_addition_flags old g).active = false) ∧
    (∀ (p : Page) (v : Lruvec), p.flags.gen_p1 ≠ 0 →
      (lru_gen_deletion p v).2.1.flags.gen_p1 = 0 ∧
      (lru_gen_deletion p v).2.1.flags.active =
        (p.flags.active || lru_gen_is_active v (p.flags.gen_p1 - 1))) ∧
    (∀ (p : Page) (v : Lruvec) (front : Bool) (e : Bool),
      page_tracked_inactive p →
      page_tracked_inactive (lru_gen_addition p v front).2.1 ∧
      page_tracked_inactive (lru_gen_deletion p v).2.1 ∧
      page_tracked_inactive (page_inc_usage e p).2) := by
  refine ⟨fun old g => ?_, fun p v h => ?_, fun p v front e hinv => ⟨?_, ?_, ?_⟩⟩
  · by_cases h : old.referenced <;> simp [lru_gen_addition_flags, h]
  · simp [lru_gen_deletion, h]
  · by_cases hrej : (p.flags.unevictable || !v.evictable.enabled (page_is_file_lru p)) = true
    · simpa [lru_gen_addition, hrej] using hinv
    · simp only [Bool.not_eq_true] at hrej
      intro hgen
      by_cases h : p.flags.referenced <;>
        simp [lru_gen_addition, hrej, lru_gen_addition_flags, h, page_tracked_inactive]
  · by_cases h : p.flags.gen_p1 = 0
    · simpa [lru_gen_deletion, h] using hinv
    · intro hgen
      simp [lru_gen_deletion, h, page_tracked_inactive] at hgen
  · cases e with
    | false => simpa [page_inc_usage] using hinv
    | true =>
      by_cases h : p.flags.workingset <;>
        simp_all [page_inc_usage, page_tracked_inactive]

/-- C10 witness: lru_gen_tracked_supersedes_active applied to the tracked
page pageT (nonzero generation field) and, for the invariant part, to
the untracked page page0. -/
theorem lru_gen_tracked_supersedes_active_witness :
    ((lru_gen_deletion pageT lruvec0).2.1.flags.gen_p1 = 0 ∧
      (lru_gen_deletion pageT lruvec0).2.1.flags.active =
        (pageT.flags.active || lru_gen_is_active lruvec0 (pageT.flags.gen_p1 - 1))) ∧
    page_tracked_inactive (lru_gen_addition page0 lruvec0 true).2.1 :=
  ⟨lru_gen_tracked_supersedes_active.2.1 pageT lruvec0 (by decide),
   (lru_gen_tracked_supersedes_active.2.2 page0 lruvec0 true true
      (by intro h; rfl)).1⟩

/-- C1: for every page accepted by lru_gen_addition, the generation
decoded from the new page word is the youngest slot (max_seq mod N) when
the page was PageActive before tracking, the second oldest slot
((min_seq of its type + 1) mod N) when the page is swap backed and not
in swap cache, or is PageReclaim and dirty or under writeback, or is
unreferenced but workingset, and the oldest slot (min_seq of its type
mod N) otherwise. -/
theorem lru_gen_addition_target_gen :
    ∀ (p : Page) (v : Lruvec) (front : Bool),
      (lru_gen_addition p v front).1 = true →
      page_lru_gen (lru_gen_addition p v front).2.1 =
        (if p.flags.active = true then
          ((v.evictable.max_seq % MAX_NR_GENS : Nat) : Int)
        else if ((!page_is_file_lru p && !p.flags.swapcache) ||
                 (p.flags.reclaim && (p.flags.dirty || p.flags.writeback)) ||
                 (!p.flags.referenced && p.flags.workingset)) = true then
          (((v.evictable.min_seq (page_is_file_lru p) + 1) % MAX_NR_GENS : Nat) : Int)
        else
          ((v.evictable.min_seq (page_is_file_lru p) % MAX_NR_GENS : Nat) : Int)) := by
  intro p v front h
  by_cases hrej : (p.flags.unevictable || !v.evictable.enabled (page_is_file_lru p)) = true
  · simp [lru_gen_addition, hrej] at h
  · simp only [Bool.not_eq_true] at hrej
    have hgen : page_lru_gen (lru_gen_addition p v front).2.1 =
        ((lru_gen_target p v : Nat) : Int) := by
      simp [lru_gen_addition, hrej, page_lru_gen,
        (lru_gen_addition_flags_fields p.flags (lru_gen_target p v)).1]
    rw [hgen]
    simp only [lru_gen_target, lru_gen_from_seq]
    by_cases ha : p.flags.active = true
    · simp [ha]
    · simp only [Bool.not_eq_true] at ha
      by_cases hc : ((!page_is_file_lru p && !p.flags.swapcache) ||
          (p.flags.reclaim && (p.flags.dirty || p.flags.writeback)) ||
          (!p.flags.referenced && p.flags.workingset)) = true
      · simp [ha, hc]
      · simp only [Bool.not_eq_true] at hc
        simp [ha, hc]

/-- C1 witness: lru_gen_addition_target_gen applied to the accepted
anonymous page pageA (not in swap cache), which lands in the second
oldest slot, generation (min_seq[anon] + 1) mod N = 1. -/
theorem lru_gen_addition_target_gen_witness :
    (lru_gen_addition pageA lruvec0 true).1 = true ∧
    page_lru_gen (lru_gen_addition pageA lruvec0 true).2.1 = 1 := by
  refine ⟨by decide, ?_⟩
  rw [lru_gen_addition_target_gen pageA lruvec0 true (by decide)]
  decide

/-- C6: lru_gen_deletion returns false exactly when the page carries no
generation, leaving page and container untouched in that case; on
success it clears the generation field and the resulting classic
activity bit is set iff the cleared generation was active (the youngest
or second youngest) at removal time.  The hypothesis that PG_active is
clear on entry is the contract asserted by
VM_BUG_ON_PAGE(PageActive(page)) at this site. -/
theorem lru_gen_deletion_spec :
    ∀ (p : Page) (v : Lruvec),
      ((lru_gen_deletion p v).1 = false ↔ p.flags.gen_p1 = 0) ∧
      (p.flags.gen_p1 = 0 → lru_gen_deletion p v = (false, p, v)) ∧
      (p.flags.gen_p1 ≠ 0 → p.flags.active = false →
        (lru_gen_deletion p v).2.1.flags.gen_p1 = 0 ∧
        ((lru_gen_deletion p v).2.1.flags.active = true ↔
          lru_gen_is_active v (p.flags.gen_p1 - 1) = true)) := by
  intro p v
  by_cases h : p.flags.gen_p1 = 0
  · simp [lru_gen_deletion, h]
  · refine ⟨by simp [lru_gen_deletion, h], fun h0 => absurd h0 h, fun _ hact => ?_⟩
    simp [lru_gen_deletion, h, hact]

/-- C6 witness: lru_gen_deletion_spec applied to the tracked page pageT,
whose generation 2 is active in lruvec0 (max_seq = 2), so the removal
clears the generation and sets the activity bit. -/
theorem lru_gen_deletion_spec_witness :
    (lru_gen_deletion pageT lruvec0).2.1.flags.gen_p1 = 0 ∧
    ((lru_gen_deletion pageT lruvec0).2.1.flags.active = true ↔
      lru_gen_is_active lruvec0 (pageT.flags.gen_p1 - 1) = true) :=
  (lru_gen_deletion_spec pageT lruvec0).2.2 (by decide) (by decide)

theorem lru_gen_update_size_add_bug (p : Page) (v : Lruvec) (g : Nat)
    (hg : g < MAX_NR_GENS) :
    (lru_gen_update_size p v (-1) (g : Int)).bug = v.bug := by
  rw [lru_gen_update_size_add_eq p v g hg]
  rfl

theorem lru_gen_update_size_del_bug (p : Page) (v : Lruvec) (g : Nat)
    (hg : g < MAX_NR_GENS) :
    (lru_gen_update_size p v (g : Int) (-1)).bug = v.bug := by
  rw [lru_gen_update_size_del_eq p v g hg]
  rfl

/-- C3: the VM_BUG_ON assertions of lru_gen_update_size never fire on the
transitions issued by lru_gen_addition (old generation untracked) and by
lru_gen_deletion (new generation untracked, generation field within the
window as every stored generation is): in particular the both-untracked
assertion and the active-to-inactive crossing assertion stay quiet; and
an inactive-to-active crossing within one call (both generations
tracked) is accounted by a remove delta on the inactive sink paired with
an add delta on the active sink, in that order. -/
theorem lru_gen_update_size_assert_safety :
    (∀ (p : Page) (v : Lruvec) (front : Bool), v.bug = false →
      ((lru_gen_addition p v front).2.2).bug = false) ∧
    (∀ (p : Page) (v : Lruvec), v.bug = false →
      p.flags.gen_p1 ≤ MAX_NR_GENS →
      ((lru_gen_deletion p v).2.2).bug = false) ∧
    (∀ (p : Page) (v : Lruvec) (og ng : Nat),
      lru_gen_is_active v og = false → lru_gen_is_active v ng = true →
      (lru_gen_update_size p v (og : Int) (ng : Int)).lru_log =
        v.lru_log ++
          [(LRU_FILE * (if page_is_file_lru p then 1 else 0), p.zone,
              -(p.nr_pages : Int)),
           (LRU_FILE * (if page_is_file_lru p then 1 else 0) + LRU_ACTIVE,
              p.zone, (p.nr_pages : Int))]) := by
  refine ⟨fun p v front hbug => ?_, fun p v hbug hle => ?_,
    fun p v og ng h1 h2 => lru_gen_update_size_cross_log p v og ng h1 h2⟩
  · by_cases hrej : (p.flags.unevictable || !v.evictable.enabled (page_is_file_lru p)) = true
    · simpa [lru_gen_addition, hrej] using hbug
    · simp only [Bool.not_eq_true] at hrej
      simp only [lru_gen_addition, hrej, Bool.false_eq_true, if_false]
      show (lru_gen_update_size p v (-1) ((lru_gen_target p v : Nat) : Int)).bug = false
      rw [lru_gen_update_size_add_bug p v _ (lru_gen_target_lt p v)]
      exact hbug
  · by_cases h0 : p.flags.gen_p1 = 0
    · simpa [lru_gen_deletion, h0] using hbug
    · have hM : 0 < MAX_NR_GENS := by norm_num [MAX_NR_GENS]
      have hg : p.flags.gen_p1 - 1 < MAX_NR_GENS := by omega
      simp only [lru_gen_deletion, h0, if_false]
      show (lru_gen_update_size p v ((p.flags.gen_p1 - 1 : Nat) : Int) (-1)).bug = false
      rw [lru_gen_update_size_del_bug p v _ hg]
      exact hbug

/-- C3 witness: lru_gen_update_size_assert_safety applied to the concrete
addition of page0 into lruvec0 and to a concrete inactive-to-active
crossing (generation 0 to generation 2 under max_seq = 2). -/
theorem lru_gen_update_size_assert_safety_witness :
    ((lru_gen_addition page0 lruvec0 true).2.2).bug = false ∧
    (lru_gen_update_size page0 lruvec0 ((0 : Nat) : Int) ((2 : Nat) : Int)).lru_log =
      lruvec0.lru_log ++
        [(LRU_FILE * (if page_is_file_lru page0 then 1 else 0), page0.zone,
            -(page0.nr_pages : Int)),
         (LRU_FILE * (if page_is_file_lru page0 then 1 else 0) + LRU_ACTIVE,
            page0.zone, (page0.nr_pages : Int))] :=
  ⟨lru_gen_update_size_assert_safety.1 page0 lruvec0 true (by decide),
   lru_gen_update_size_assert_safety.2.2 page0 lruvec0 0 2 (by decide) (by decide)⟩

/-- C5: adding an untracked page (one carrying no generation and linked
in no list slot) with lru_gen_addition and then removing it with
lru_gen_deletion restores the per (generation, type, zone) size
counters, the list membership and the external sink counters to their
pre-add state, and the page decodes to generation -1 afterward. -/
theorem lru_gen_add_then_delete_roundtrip :
    ∀ (p : Page) (v : Lruvec) (front : Bool),
      p.flags.gen_p1 = 0 →
      (∀ (g : Nat) (f : Bool) (z : Nat), p.id ∉ v.evictable.lists g f z) →
      (lru_gen_addition p v front).1 = true →
      (lru_gen_deletion (lru_gen_addition p v front).2.1
          (lru_gen_addition p v front).2.2).1 = true ∧
      (lru_gen_deletion (lru_gen_addition p v front).2.1
          (lru_gen_addition p v front).2.2).2.2.evictable.sizes =
        v.evictable.sizes ∧
      (lru_gen_deletion (lru_gen_addition p v front).2.1
          (lru_gen_addition p v front).2.2).2.2.evictable.lists =
        v.evictable.lists ∧
      (lru_gen_deletion (lru_gen_addition p v front).2.1
          (lru_gen_addition p v front).2.2).2.2.lru_sizes = v.lru_sizes ∧
      page_lru_gen (lru_gen_deletion (lru_gen_addition p v front).2.1
          (lru_gen_addition p v front).2.2).2.1 = -1 := by
  intro p v front hp0 hnot htrue
  by_cases hrej : (p.flags.unevictable || !v.evictable.enabled (page_is_file_lru p)) = true
  · simp [lru_gen_addition, hrej] at htrue
  · simp only [Bool.not_eq_true] at hrej
    have hg : lru_gen_target p v < MAX_NR_GENS := lru_gen_target_lt p v
    have hflags := lru_gen_addition_flags_fields p.flags (lru_gen_target p v)
    have hadd : lru_gen_addition p v front =
        (true, { p with flags := lru_gen_addition_flags p.flags (lru_gen_target p v) },
         { lru_gen_update_size p v (-1) ((lru_gen_target p v : Nat) : Int) with
           evictable := if front then
               lru_list_add (lru_gen_update_size p v (-1)
                 ((lru_gen_target p v : Nat) : Int)).evictable p.id
                 (lru_gen_target p v) (page_is_file_lru p) p.zone
             else
               lru_list_add_tail (lru_gen_update_size p v (-1)
                 ((lru_gen_target p v : Nat) : Int)).evictable p.id
                 (lru_gen_target p v) (page_is_file_lru p) p.zone }) := by
      simp only [lru_gen_addition, hrej, Bool.false_eq_true, if_false]
    rw [hadd]
    obtain ⟨hgp1, hact, hswap, href⟩ := hflags
    simp only [lru_gen_deletion, hgp1, Nat.succ_ne_zero, if_false, Nat.add_sub_cancel]
    rw [lru_gen_update_size_del_eq _ _ _ hg]
    rw [lru_gen_update_size_add_eq p v _ hg]
    refine ⟨trivial, ?_, ?_, ?_, ?_⟩
    · cases front <;>
        simp [update_lru_size, lru_list_del, lru_list_add, lru_list_add_tail,
          page_is_file_lru, hswap, updSizes_cancel]
    · cases front
      · funext g' f' z'
        simp only [update_lru_size, lru_list_del, lru_list_add, lru_list_add_tail,
          page_is_file_lru, hswap, Bool.false_eq_true, Bool.true_eq_false,
          if_false, if_true]
        by_cases hc : g' = lru_gen_target p v ∧ f' = !p.flags.swapbacked ∧ z' = p.zone
        · rw [if_pos hc, List.erase_append_right _ (hnot g' f' z'),
            List.erase_cons_head, List.append_nil]
        · rw [if_neg hc]
          exact List.erase_of_not_mem (hnot g' f' z')
      · funext g' f' z'
        simp only [update_lru_size, lru_list_del, lru_list_add, lru_list_add_tail,
          page_is_file_lru, hswap, Bool.false_eq_true, Bool.true_eq_false,
          if_false, if_true]
        by_cases hc : g' = lru_gen_target p v ∧ f' = !p.flags.swapbacked ∧ z' = p.zone
        · rw [if_pos hc, List.erase_cons_head]
        · rw [if_neg hc]
          exact List.erase_of_not_mem (hnot g' f' z')
    · cases front <;>
        simp [update_lru_size, lru_list_del, lru_list_add, lru_list_add_tail,
          page_is_file_lru, hswap, lru_gen_is_active, lru_gen_from_seq, updLru_cancel]
    · simp [page_lru_gen]

/-- C5 witness: lru_gen_add_then_delete_roundtrip applied to the concrete
untracked page page0 and the empty container lruvec0. -/
theorem lru_gen_add_then_delete_roundtrip_witness :
    (lru_gen_deletion (lru_gen_addition page0 lruvec0 true).2.1
        (lru_gen_addition page0 lruvec0 true).2.2).1 = true ∧
    page_lru_gen (lru_gen_deletion (lru_gen_addition page0 lruvec0 true).2.1
        (lru_gen_addition page0 lruvec0 true).2.2).2.1 = -1 := by
  have h := lru_gen_add_then_delete_roundtrip page0 lruvec0 true (by decide)
    (by intro g f z; simp [lruvec0, lrugen0]) (by decide)
  exact ⟨h.1, h.2.2.2.2⟩
